import Mathlib

/-!
Verification of the widget-identity and state-reconciliation engine
(`streamlit/runtime/state/widgets.py`): the identity deriver
`_get_widget_id`, the per-run registrar `register_widget`, and the state
coalescer `coalesce_widget_states`, as a shallow embedding in Lean 4.

Machine integers are modelled as `Nat` with explicit reduction mod `2 ^ 32`
(resp. `2 ^ 64`) where the hash arithmetic of the source wraps.
-/

set_option autoImplicit false

namespace Widgets

/-! ## MD5 (the hash used by `hashlib.new("md5")` in `_get_widget_id`)

A byte is a `Nat < 256`; a message is a `List Nat` of bytes.  This is the
standard MD5 of RFC 1321, operating on 32-bit words modelled as `Nat`
reduced mod `2 ^ 32`. -/

/-- Left-rotation of a 32-bit word (a `Nat < 2 ^ 32`) by `n` places. -/
def rotl32 (x n : Nat) : Nat :=
  ((x <<< n) ||| (x >>> (32 - n))) % (2 ^ 32)

/-- The 64 MD5 sine-derived round constants `K[i] = floor(2^32 * abs(sin(i+1)))`. -/
def md5K : List Nat :=
  [0xd76aa478, 0xe8c7b756, 0x242070db, 0xc1bdceee,
   0xf57c0faf, 0x4787c62a, 0xa8304613, 0xfd469501,
   0x698098d8, 0x8b44f7af, 0xffff5bb1, 0x895cd7be,
   0x6b901122, 0xfd987193, 0xa679438e, 0x49b40821,
   0xf61e2562, 0xc040b340, 0x265e5a51, 0xe9b6c7aa,
   0xd62f105d, 0x02441453, 0xd8a1e681, 0xe7d3fbc8,
   0x21e1cde6, 0xc33707d6, 0xf4d50d87, 0x455a14ed,
   0xa9e3e905, 0xfcefa3f8, 0x676f02d9, 0x8d2a4c8a,
   0xfffa3942, 0x8771f681, 0x6d9d6122, 0xfde5380c,
   0xa4beea44, 0x4bdecfa9, 0xf6bb4b60, 0xbebfbc70,
   0x289b7ec6, 0xeaa127fa, 0xd4ef3085, 0x04881d05,
   0xd9d4d039, 0xe6db99e5, 0x1fa27cf8, 0xc4ac5665,
   0xf4292244, 0x432aff97, 0xab9423a7, 0xfc93a039,
   0x655b59c3, 0x8f0ccc92, 0xffeff47d, 0x85845dd1,
   0x6fa87e4f, 0xfe2ce6e0, 0xa3014314, 0x4e0811a1,
   0xf7537e82, 0xbd3af235, 0x2ad7d2bb, 0xeb86d391]

/-- The 64 MD5 per-round left-rotation amounts. -/
def md5S : List Nat :=
  [7, 12, 17, 22, 7, 12, 17, 22, 7, 12, 17, 22, 7, 12, 17, 22,
   5,  9, 14, 20, 5,  9, 14, 20, 5,  9, 14, 20, 5,  9, 14, 20,
   4, 11, 16, 23, 4, 11, 16, 23, 4, 11, 16, 23, 4, 11, 16, 23,
   6, 10, 15, 21, 6, 10, 15, 21, 6, 10, 15, 21, 6, 10, 15, 21]

/-- The MD5 round mixing function: F, G, H, I depending on the round index. -/
def md5F (i b c d : Nat) : Nat :=
  if i < 16 then (b &&& c) ||| ((b ^^^ 0xffffffff) &&& d)
  else if i < 32 then (d &&& b) ||| ((d ^^^ 0xffffffff) &&& c)
  else if i < 48 then b ^^^ c ^^^ d
  else c ^^^ (b ||| (d ^^^ 0xffffffff))

/-- The MD5 message-word index schedule. -/
def md5G (i : Nat) : Nat :=
  if i < 16 then i
  else if i < 32 then (5 * i + 1) % 16
  else if i < 48 then (3 * i + 5) % 16
  else (7 * i) % 16

/-- One MD5 round: transforms the state `(a, b, c, d)` at round `i` over the
16-word block `M`. -/
def md5Round (M : List Nat) (st : Nat × Nat × Nat × Nat) (i : Nat) :
    Nat × Nat × Nat × Nat :=
  let a := st.1
  let b := st.2.1
  let c := st.2.2.1
  let d := st.2.2.2
  let f := md5F i b c d
  let g := md5G i
  let tmp := (a + f + md5K.getD i 0 + M.getD g 0) % (2 ^ 32)
  let b2 := (b + rotl32 tmp (md5S.getD i 0)) % (2 ^ 32)
  (d, b2, b, c)

/-- Little-endian byte decomposition of `x` into `n` bytes. -/
def toLEBytes (n x : Nat) : List Nat :=
  (List.range n).map (fun i => (x >>> (8 * i)) % 256)

/-- Little-endian 32-bit words of one 64-byte block. -/
def blockWords (block : List Nat) : List Nat :=
  (List.range 16).map (fun i =>
    block.getD (4 * i) 0 + block.getD (4 * i + 1) 0 * 256 +
    block.getD (4 * i + 2) 0 * 65536 + block.getD (4 * i + 3) 0 * 16777216)

/-- Process one 64-byte block against the running state. -/
def md5Block (st : Nat × Nat × Nat × Nat) (block : List Nat) :
    Nat × Nat × Nat × Nat :=
  let M := blockWords block
  let r := (List.range 64).foldl (md5Round M) st
  ((st.1 + r.1) % (2 ^ 32), (st.2.1 + r.2.1) % (2 ^ 32),
   (st.2.2.1 + r.2.2.1) % (2 ^ 32), (st.2.2.2 + r.2.2.2) % (2 ^ 32))

/-- MD5 padding: append `0x80`, zero bytes up to 56 mod 64, then the bit
length as a 64-bit little-endian quantity.  The zero count is
`(56 - (r + 1)) mod 64` for `r` the length residue mod 64, written as
`(119 - r) % 64` so the `Nat` subtraction never truncates (for every
`r < 64` the minuend exceeds the subtrahend). -/
def md5Pad (msg : List Nat) : List Nat :=
  let padZeros := (119 - msg.length % 64) % 64
  msg ++ [0x80] ++ List.replicate padZeros 0 ++ toLEBytes 8 ((msg.length * 8) % (2 ^ 64))

/-- Split a byte list into 64-byte chunks (fuel-based structural recursion;
any fuel at least the length of the list splits the whole list). -/
def chunks64Go : Nat → List Nat → List (List Nat)
  | 0, _ => []
  | _, [] => []
  | fuel + 1, b :: rest => (b :: rest).take 64 :: chunks64Go fuel ((b :: rest).drop 64)

/-- Split a byte list into 64-byte chunks. -/
def chunks64 (l : List Nat) : List (List Nat) :=
  chunks64Go l.length l

/-- The 16 digest bytes of the MD5 of a byte message. -/
def md5Bytes (msg : List Nat) : List Nat :=
  let st := (chunks64 (md5Pad msg)).foldl md5Block
    (0x67452301, 0xefcdab89, 0x98badcfe, 0x10325476)
  toLEBytes 4 st.1 ++ toLEBytes 4 st.2.1 ++ toLEBytes 4 st.2.2.1 ++ toLEBytes 4 st.2.2.2

/-- One lowercase hexadecimal digit. -/
def hexDigit (n : Nat) : Char :=
  if n < 10 then Char.ofNat (48 + n) else Char.ofNat (87 + n)

/-- Two lowercase hex characters of one byte, high nibble first. -/
def byteToHex (b : Nat) : List Char :=
  [hexDigit (b / 16), hexDigit (b % 16)]

/-- The lowercase hex digest string of the MD5 of a byte message, as
the `hexdigest()` of `hashlib` renders it. -/
def md5Hex (msg : List Nat) : String :=
  String.mk (((md5Bytes msg).map byteToHex).flatten)

/-- UTF-8 encoding of the code point of one character. -/
def utf8Char (c : Char) : List Nat :=
  let n := c.toNat
  if n < 0x80 then [n]
  else if n < 0x800 then [0xc0 ||| (n >>> 6), 0x80 ||| (n &&& 0x3f)]
  else if n < 0x10000 then
    [0xe0 ||| (n >>> 12), 0x80 ||| ((n >>> 6) &&& 0x3f), 0x80 ||| (n &&& 0x3f)]
  else
    [0xf0 ||| (n >>> 18), 0x80 ||| ((n >>> 12) &&& 0x3f),
     0x80 ||| ((n >>> 6) &&& 0x3f), 0x80 ||| (n &&& 0x3f)]

/-- UTF-8 encoding of a string, as python `str.encode("utf-8")`. -/
def utf8Encode (s : String) : List Nat :=
  (s.data.map utf8Char).flatten

/-! Kernel-checked RFC 1321 test vectors for the MD5 embedding, at a short
length, and at the two extreme lengths of the padding boundary residues 56
and 63 mod 64 (where the zero-pad count wraps through 63 and 56). -/

set_option maxRecDepth 10000 in
/-- The three-byte vector: MD5 of the ASCII bytes of abc. -/
theorem md5Hex_vector_abc :
    md5Hex (utf8Encode "abc") = "900150983cd24fb0d6963f7d28e17f72" := by
  decide

set_option maxRecDepth 10000 in
/-- The 56-zero-byte vector: length residue 56 mod 64, padded with 63 zero
bytes into two blocks. -/
theorem md5Hex_vector_56_zeros :
    md5Hex (List.replicate 56 0) = "e3c4dd21a9171fd39d208efa09bf7883" := by
  decide

set_option maxRecDepth 10000 in
/-- The 63-zero-byte vector: length residue 63 mod 64, padded with 56 zero
bytes into two blocks. -/
theorem md5Hex_vector_63_zeros :
    md5Hex (List.replicate 63 0) = "65cecfb980d72fde57d175d6ec1c3f64" := by
  decide

/-! ## The identity deriver `_get_widget_id` -/

/-- Modelled from the spec: the fixed identity prefix imported from the
session-state module (`GENERATED_WIDGET_KEY_PREFIX` in `.session_state`),
which is not among the source files of this repository.  The spec fixes only that
it is a constant marker; the exact text is immaterial to every property
proved below. -/
def GENERATED_WIDGET_KEY_PREFIX : String := "$$GENERATED_WIDGET_KEY"

/-- Rendering of an `Optional[str]` as python `str()` renders it into an f-string:
`None` renders as the four characters `None`, a present string renders as
itself. -/
def pyStr : Option String → String
  | none => "None"
  | some s => s

/-- A widget element proto.  The wire-format protobuf encoding is an external
collaborator (out of scope per the spec), so the configuration is carried as
the opaque byte blob `serialized` that `SerializeToString` would produce at
call time, alongside the assignable `id` field that `register_widget`
writes. -/
structure WidgetProto where
  serialized : List Nat
  id : String
deriving DecidableEq

/-- The proto method `SerializeToString()`: returns the carried configuration
bytes. -/
def WidgetProto.SerializeToString (p : WidgetProto) : List Nat :=
  p.serialized

/-- The incremental state of `hashlib.new("md5")`: an `update` call appends
bytes; `hexdigest` is the MD5 hex digest of everything fed so far. -/
structure Md5Ctx where
  data : List Nat

/-- Method `h.update(bs)`: feed more bytes into the accumulator. -/
def Md5Ctx.update (h : Md5Ctx) (bs : List Nat) : Md5Ctx :=
  ⟨h.data ++ bs⟩

/-- Method `h.hexdigest()`: the MD5 hex digest of the accumulated bytes. -/
def Md5Ctx.hexdigest (h : Md5Ctx) : String :=
  md5Hex h.data

/-- Function `_get_widget_id(element_type, element_proto, user_key)`: feed the UTF-8
bytes of `element_type` and then the serialized proto into an MD5
accumulator, and format the identity as
`<prefix>-<hexdigest>-<user_key rendered by str()>`.  Does not mutate the
proto. -/
def _get_widget_id (element_type : String) (element_proto : WidgetProto)
    (user_key : Option String) : String :=
  let h : Md5Ctx := ⟨[]⟩
  let h := h.update (utf8Encode element_type)
  let h := h.update element_proto.SerializeToString
  GENERATED_WIDGET_KEY_PREFIX ++ "-" ++ h.hexdigest ++ "-" ++ pyStr user_key

/-! ## The per-run registrar `register_widget` -/

/-- Modelled from the spec: the notion the deserializer has of a default/fallback
value (the value a `RegisterWidgetResult.failure` carries); the deserializer
function itself lives in the session-state module, outside the sources of
this repository. -/
structure WidgetDeserializer (T : Type) where
  defaultValue : T

/-- Modelled from the spec: the result returned to the widget caller — a
value and whether the UI needs updating.  Defined in the session-state
module, outside the sources of this repository. -/
structure RegisterWidgetResult (T : Type) where
  value : T
  value_changed : Bool

/-- Modelled from the spec: `RegisterWidgetResult.failure(deserializer)` — a
failure result carrying only the default/fallback value of the deserializer. -/
def RegisterWidgetResult.failure {T : Type} (deserializer : WidgetDeserializer T) :
    RegisterWidgetResult T :=
  ⟨deserializer.defaultValue, false⟩

/-- The static `ELEMENT_TYPE_TO_VALUE_TYPE` table: the 16 element types and
the value-slot tag guessed for each. -/
def ELEMENT_TYPE_TO_VALUE_TYPE : List (String × String) :=
  [("button", "trigger_value"),
   ("download_button", "trigger_value"),
   ("checkbox", "bool_value"),
   ("camera_input", "file_uploader_state_value"),
   ("color_picker", "string_value"),
   ("date_input", "string_array_value"),
   ("file_uploader", "file_uploader_state_value"),
   ("multiselect", "int_array_value"),
   ("number_input", "double_value"),
   ("radio", "int_value"),
   ("selectbox", "int_value"),
   ("slider", "double_array_value"),
   ("text_area", "string_value"),
   ("text_input", "string_value"),
   ("time_input", "string_value"),
   ("component_instance", "json_value")]

/-- The widget metadata handed to the session store on the happy path:
identity, deserializer, and the value-type tag looked up in the static
table.  The serializer and the callback bundle (`on_change_handler`, `args`,
`kwargs`) are carried verbatim in the source and never inspected by any
property below, so they are not repeated here. -/
structure WidgetMetadata (T : Type) where
  widget_id : String
  deserializer : WidgetDeserializer T
  value_type : String

/-- The claim sets of the run context (`RunClaimSet`): the widget ids and the
user keys claimed so far in this run.  Python `set`s are modelled as lists
mutated by append-if-absent, which the membership-test-then-`add`
discipline of `register_widget` maintains. -/
structure ScriptRunContext where
  widget_ids_this_run : List String
  widget_user_keys_this_run : List String
deriving DecidableEq

/-- Function `_build_duplicate_widget_message(widget_func_name, user_key)`: the
duplicate-key wording when a user key is present, the duplicate-generated-id
wording otherwise.  Punctuation of the source text (quotes around the key)
is elided; no property below inspects the message text. -/
def _build_duplicate_widget_message (widget_func_name : String)
    (user_key : Option String) : String :=
  match user_key with
  | some k =>
    "There are multiple identical st." ++ widget_func_name ++
    " widgets with key=" ++ k ++
    ". To fix this, please make sure that the key argument is unique for each st." ++
    widget_func_name ++ " you create."
  | none =>
    "There are multiple identical st." ++ widget_func_name ++
    " widgets with the same generated key. To fix this error, please pass a unique key argument to st." ++
    widget_func_name ++ "."

/-- How a call to `register_widget` ends: the early no-context fallback
return, a raised `DuplicateWidgetID`, a raised `KeyError` (the static table
lookup at metadata construction has no entry), or the happy-path delegation
`ctx.session_state.register_widget(metadata, user_key)` to the session
store (itself an external collaborator). -/
inductive RegisterOutcome (T : Type) where
  | fallback (result : RegisterWidgetResult T)
  | raisedDuplicateWidgetID (message : String)
  | raisedKeyError (missing : String)
  | delegated (metadata : WidgetMetadata T) (user_key : Option String)

/-- Discriminator: did the call raise `DuplicateWidgetID`? -/
def RegisterOutcome.isRaisedDup {T : Type} : RegisterOutcome T → Bool
  | .raisedDuplicateWidgetID _ => true
  | _ => false

/-- The complete observable effect of one `register_widget` call: how it
ended, the claim sets of the run context as they stand when control leaves the
function (also when it leaves by raising), and the element proto after the
call. -/
structure RegisterCall (T : Type) where
  outcome : RegisterOutcome T
  ctx : Option ScriptRunContext
  element_proto : WidgetProto

/-- Function `register_widget(element_type, element_proto, deserializer, ctx,
user_key, widget_func_name)`: derive the identity and assign it onto the
proto; early-out with a fallback result when `ctx` is `None`; otherwise
claim the user key (raising `DuplicateWidgetID` when already claimed), then
claim the identity (raising `DuplicateWidgetID` when already claimed), then
build the metadata — looking the value type up in the static table, a
`KeyError` when absent — and delegate to the session store. -/
def register_widget {T : Type} (element_type : String)
    (element_proto : WidgetProto) (deserializer : WidgetDeserializer T)
    (ctx : Option ScriptRunContext) (user_key : Option String)
    (widget_func_name : Option String) : RegisterCall T :=
  let widget_id := _get_widget_id element_type element_proto user_key
  let element_proto := { element_proto with id := widget_id }
  match ctx with
  | none => ⟨.fallback (RegisterWidgetResult.failure deserializer), none, element_proto⟩
  | some ctx =>
    let name := match widget_func_name with
      | some n => n
      | none => element_type
    -- the remainder of the function after the user-key claim has succeeded,
    -- running over the possibly key-mutated claim sets
    let afterKeyClaim : ScriptRunContext → RegisterCall T := fun c =>
      if widget_id ∉ c.widget_ids_this_run then
        let c2 : ScriptRunContext :=
          { c with widget_ids_this_run := c.widget_ids_this_run ++ [widget_id] }
        match ELEMENT_TYPE_TO_VALUE_TYPE.lookup element_type with
        | none => ⟨.raisedKeyError element_type, some c2, element_proto⟩
        | some vt =>
          ⟨.delegated ⟨widget_id, deserializer, vt⟩ user_key, some c2, element_proto⟩
      else
        ⟨.raisedDuplicateWidgetID (_build_duplicate_widget_message name user_key),
         some c, element_proto⟩
    match user_key with
    | some k =>
      if k ∉ ctx.widget_user_keys_this_run then
        afterKeyClaim
          { ctx with widget_user_keys_this_run := ctx.widget_user_keys_this_run ++ [k] }
      else
        ⟨.raisedDuplicateWidgetID (_build_duplicate_widget_message name user_key),
         some ctx, element_proto⟩
    | none => afterKeyClaim ctx

/-! ## The state coalescer `coalesce_widget_states`

The `WidgetState` proto is an external wire format (out of scope per the
spec): an identity plus a tagged union (`oneof value`) occupying exactly one
of a fixed set of slots.  The slots are the value types named in the static
`ELEMENT_TYPE_TO_VALUE_TYPE` table; the payloads of the non-trigger slots
are never inspected by the coalescer, so numeric payloads are carried as
`Int` without loss. -/

/-- The tagged value union of a `WidgetState`: exactly one slot active. -/
inductive WidgetValue where
  | trigger_value (value : Bool)
  | bool_value (value : Bool)
  | int_value (value : Int)
  | double_value (value : Int)
  | string_value (value : String)
  | int_array_value (value : List Int)
  | double_array_value (value : List Int)
  | string_array_value (value : List String)
  | json_value (value : String)
  | file_uploader_state_value (value : String)
deriving DecidableEq

/-- One client-reported widget state: an identity and a tagged value. -/
structure WidgetState where
  id : String
  value : WidgetValue
deriving DecidableEq

/-- Method `wstate.WhichOneof("value")`: the name of the active value slot. -/
def WidgetState.whichOneof (w : WidgetState) : String :=
  match w.value with
  | .trigger_value _ => "trigger_value"
  | .bool_value _ => "bool_value"
  | .int_value _ => "int_value"
  | .double_value _ => "double_value"
  | .string_value _ => "string_value"
  | .int_array_value _ => "int_array_value"
  | .double_array_value _ => "double_array_value"
  | .string_array_value _ => "string_array_value"
  | .json_value _ => "json_value"
  | .file_uploader_state_value _ => "file_uploader_state_value"

/-- Accessor `wstate.trigger_value`: the boolean of the trigger slot, the
protobuf default `False` when another slot is active. -/
def WidgetState.trigger_value (w : WidgetState) : Bool :=
  match w.value with
  | .trigger_value b => b
  | _ => false

/-- A `WidgetStates` proto: the ordered `widgets` collection. -/
structure WidgetStates where
  widgets : List WidgetState
deriving DecidableEq

/-- Python-dict assignment `d[k] = v` on an insertion-ordered association
list with unique keys: replace the value in place when the key is present,
append at the end when absent. -/
def dictSet : List (String × WidgetState) → String → WidgetState →
    List (String × WidgetState)
  | [], k, v => [(k, v)]
  | p :: rest, k, v =>
    if p.1 = k then (k, v) :: rest else p :: dictSet rest k v

/-- Python-dict lookup `d.get(k)`. -/
def dictGet : List (String × WidgetState) → String → Option WidgetState
  | [], _ => none
  | p :: rest, k => if p.1 = k then some p.2 else dictGet rest k

/-- The dict comprehension indexing `new_states.widgets` by id: successive
`d[wstate.id] = wstate` assignments, later entries overwriting earlier
ones. -/
def statesById (ws : List WidgetState) : List (String × WidgetState) :=
  ws.foldl (fun d w => dictSet d w.id w) []

/-- The body of the coalescer loop over `old_states.widgets`: when the old
state occupies the trigger slot with value `True`, and the indexed new
result holds a state for the same id that also occupies the trigger slot,
overwrite that entry with the old state; otherwise leave the dict
unchanged.  (A `WidgetState` message present in the dict is truthy in the
source — its `value` oneof is set — so `if new_trigger_val and ...`
is the `Option` match below.) -/
def coalesceStep (d : List (String × WidgetState)) (old_state : WidgetState) :
    List (String × WidgetState) :=
  if old_state.whichOneof = "trigger_value" ∧ old_state.trigger_value = true then
    match dictGet d old_state.id with
    | some new_trigger_val =>
      if new_trigger_val.whichOneof = "trigger_value" then
        dictSet d old_state.id old_state
      else d
    | none => d
  else d

/-- Function `coalesce_widget_states(old_states, new_states)`: index the new snapshot
by id, re-assert old trigger-true states onto same-id trigger-slot entries,
and emit the values of the dict. -/
def coalesce_widget_states (old_states new_states : WidgetStates) : WidgetStates :=
  let d0 := statesById new_states.widgets
  let d1 := old_states.widgets.foldl coalesceStep d0
  ⟨d1.map (fun p => p.2)⟩

/-- Lookup of the state an (ordered) snapshot holds for an identity: the
first entry carrying that id, `none` when the identity is absent.  On
snapshots with unique identities this is the "maps id to" relation of the
spec. -/
def findState : List WidgetState → String → Option WidgetState
  | [], _ => none
  | w :: rest, i => if w.id = i then some w else findState rest i

/-! ## Infrastructure lemmas on the dict and the coalescer folds -/

theorem dictGet_dictSet_self (d : List (String × WidgetState)) (k : String)
    (v : WidgetState) : dictGet (dictSet d k v) k = some v := by
  induction d with
  | nil => simp [dictSet, dictGet]
  | cons p rest ih =>
    by_cases h : p.1 = k
    · simp [dictSet, dictGet, h]
    · simp [dictSet, dictGet, h, ih]

theorem dictGet_dictSet_ne (d : List (String × WidgetState)) (k k2 : String)
    (v : WidgetState) (h : k2 ≠ k) :
    dictGet (dictSet d k v) k2 = dictGet d k2 := by
  induction d with
  | nil => simp [dictSet, dictGet, Ne.symm h]
  | cons p rest ih =>
    by_cases hp : p.1 = k
    · have hp2 : p.1 ≠ k2 := by rw [hp]; exact Ne.symm h
      simp [dictSet, dictGet, hp, Ne.symm h, hp2]
    · by_cases hq : p.1 = k2 <;> simp [dictSet, dictGet, hp, hq, ih, h]

theorem mem_of_mem_dictSet {d : List (String × WidgetState)} {k : String}
    {v : WidgetState} {p : String × WidgetState}
    (h : p ∈ dictSet d k v) : p ∈ d ∨ p = (k, v) := by
  induction d with
  | nil => simpa [dictSet] using h
  | cons q rest ih =>
    by_cases hq : q.1 = k
    · simp only [dictSet, hq, if_pos] at h
      rcases List.mem_cons.mp h with h | h
      · exact Or.inr h
      · exact Or.inl (List.mem_cons_of_mem _ h)
    · simp only [dictSet, hq, if_neg, not_false_iff] at h
      rcases List.mem_cons.mp h with h | h
      · exact Or.inl (List.mem_cons.mpr (Or.inl h))
      · rcases ih h with h | h
        · exact Or.inl (List.mem_cons_of_mem _ h)
        · exact Or.inr h

theorem dictGet_mem {d : List (String × WidgetState)} {k : String}
    {v : WidgetState} (h : dictGet d k = some v) : (k, v) ∈ d := by
  induction d with
  | nil => simp [dictGet] at h
  | cons p rest ih =>
    by_cases hp : p.1 = k
    · simp only [dictGet, hp, if_pos] at h
      cases h
      rcases p with ⟨a, b⟩
      simp_all
    · simp only [dictGet, hp, if_neg, not_false_iff] at h
      exact List.mem_cons_of_mem _ (ih h)

theorem dictSet_eq_append {d : List (String × WidgetState)} {k : String}
    {v : WidgetState} (h : k ∉ d.map Prod.fst) :
    dictSet d k v = d ++ [(k, v)] := by
  induction d with
  | nil => simp [dictSet]
  | cons p rest ih =>
    simp only [List.map_cons, List.mem_cons] at h
    push_neg at h
    simp [dictSet, Ne.symm h.1, ih h.2]

theorem findState_id {l : List WidgetState} {i : String} {w : WidgetState}
    (h : findState l i = some w) : w.id = i := by
  induction l with
  | nil => simp [findState] at h
  | cons x rest ih =>
    by_cases hx : x.id = i
    · simp only [findState, hx, if_pos] at h
      cases h; exact hx
    · simp only [findState, hx, if_neg, not_false_iff] at h
      exact ih h

/-- When a widget state occupies the trigger slot with a true value, it is
exactly the trigger-true state with its id. -/
theorem eq_trigger_true {w : WidgetState} (h1 : w.whichOneof = "trigger_value")
    (h2 : w.trigger_value = true) :
    w = ⟨w.id, WidgetValue.trigger_value true⟩ := by
  rcases w with ⟨i, v⟩
  cases v <;> simp_all [WidgetState.whichOneof, WidgetState.trigger_value]

/-! Characterizations of one step of the old-state loop. -/

theorem coalesceStep_of_not_fire {d : List (String × WidgetState)}
    {o : WidgetState}
    (hc : ¬(o.whichOneof = "trigger_value" ∧ o.trigger_value = true)) :
    coalesceStep d o = d := by
  simp [coalesceStep, hc]

theorem coalesceStep_of_absent {d : List (String × WidgetState)}
    {o : WidgetState} (hg : dictGet d o.id = none) :
    coalesceStep d o = d := by
  unfold coalesceStep
  rw [hg]
  simp

theorem coalesceStep_of_nontrigger {d : List (String × WidgetState)}
    {o : WidgetState} {nv : WidgetState} (hg : dictGet d o.id = some nv)
    (ht : nv.whichOneof ≠ "trigger_value") :
    coalesceStep d o = d := by
  unfold coalesceStep
  rw [hg]
  simp [ht]

theorem coalesceStep_of_fire {d : List (String × WidgetState)}
    {o : WidgetState} {nv : WidgetState}
    (hc1 : o.whichOneof = "trigger_value") (hc2 : o.trigger_value = true)
    (hg : dictGet d o.id = some nv) (ht : nv.whichOneof = "trigger_value") :
    coalesceStep d o = dictSet d o.id o := by
  unfold coalesceStep
  rw [hg]
  simp [hc1, hc2, ht]

/-- Whatever one coalescer step does to the dict at the id of the processed
old state, every other id reads the same as before. -/
theorem coalesceStep_get_ne (d : List (String × WidgetState))
    (o : WidgetState) (i : String) (ho : i ≠ o.id) :
    dictGet (coalesceStep d o) i = dictGet d i := by
  by_cases hc : o.whichOneof = "trigger_value" ∧ o.trigger_value = true
  · rcases hg : dictGet d o.id with _ | nv
    · rw [coalesceStep_of_absent hg]
    · by_cases ht : nv.whichOneof = "trigger_value"
      · rw [coalesceStep_of_fire hc.1 hc.2 hg ht]
        exact dictGet_dictSet_ne _ _ _ _ ho
      · rw [coalesceStep_of_nontrigger hg ht]
  · rw [coalesceStep_of_not_fire hc]

/-- Processing old states never touches an id absent from the dict. -/
theorem coalesceFold_get_none (olds : List WidgetState)
    (d : List (String × WidgetState)) (i : String)
    (h : dictGet d i = none) :
    dictGet (olds.foldl coalesceStep d) i = none := by
  induction olds generalizing d with
  | nil => simpa using h
  | cons o rest ih =>
    refine ih _ ?_
    by_cases ho : i = o.id
    · subst ho
      rw [coalesceStep_of_absent h]
      exact h
    · rw [coalesceStep_get_ne _ _ _ ho]
      exact h

/-- Processing old states leaves a non-trigger entry of the dict alone. -/
theorem coalesceFold_get_nontrigger (olds : List WidgetState)
    (d : List (String × WidgetState)) (i : String) (ns : WidgetState)
    (h : dictGet d i = some ns) (hns : ns.whichOneof ≠ "trigger_value") :
    dictGet (olds.foldl coalesceStep d) i = some ns := by
  induction olds generalizing d with
  | nil => simpa using h
  | cons o rest ih =>
    refine ih _ ?_
    by_cases ho : i = o.id
    · subst ho
      rw [coalesceStep_of_nontrigger h hns]
      exact h
    · rw [coalesceStep_get_ne _ _ _ ho]
      exact h

/-- A trigger-true entry of the dict survives the whole old-state loop: any
later old state that overwrites it must itself be that same trigger-true
state. -/
theorem coalesceFold_keeps_trigger_true (olds : List WidgetState)
    (d : List (String × WidgetState)) (i : String)
    (h : dictGet d i = some ⟨i, WidgetValue.trigger_value true⟩) :
    dictGet (olds.foldl coalesceStep d) i
      = some ⟨i, WidgetValue.trigger_value true⟩ := by
  induction olds generalizing d with
  | nil => simpa using h
  | cons o rest ih =>
    refine ih _ ?_
    by_cases ho : i = o.id
    · subst ho
      by_cases hc : o.whichOneof = "trigger_value" ∧ o.trigger_value = true
      · have htv : (WidgetState.mk o.id (WidgetValue.trigger_value true)).whichOneof
            = "trigger_value" := rfl
        rw [coalesceStep_of_fire hc.1 hc.2 h htv, dictGet_dictSet_self]
        rw [← eq_trigger_true hc.1 hc.2]
      · rw [coalesceStep_of_not_fire hc]
        exact h
    · rw [coalesceStep_get_ne _ _ _ ho]
      exact h

/-- The central overwrite lemma: when the old snapshot holds the
trigger-true state as its first entry for `i` and the dict holds a
trigger-slot state for `i`, the old-state loop ends with the dict holding
that trigger-true state. -/
theorem coalesceFold_get_of_trigger (olds : List WidgetState)
    (d : List (String × WidgetState)) (i : String) (ns : WidgetState)
    (hfind : findState olds i = some ⟨i, WidgetValue.trigger_value true⟩)
    (hd : dictGet d i = some ns)
    (hns : ns.whichOneof = "trigger_value") :
    dictGet (olds.foldl coalesceStep d) i
      = some ⟨i, WidgetValue.trigger_value true⟩ := by
  induction olds generalizing d ns with
  | nil => simp [findState] at hfind
  | cons o rest ih =>
    by_cases ho : o.id = i
    · have hoeq : o = ⟨i, WidgetValue.trigger_value true⟩ := by
        simpa [findState, ho] using hfind
      simp only [List.foldl_cons]
      refine coalesceFold_keeps_trigger_true rest _ i ?_
      have hg : dictGet d o.id = some ns := by rw [ho]; exact hd
      have hc1 : o.whichOneof = "trigger_value" := by rw [hoeq]; rfl
      have hc2 : o.trigger_value = true := by rw [hoeq]; rfl
      rw [coalesceStep_of_fire hc1 hc2 hg hns, ho, dictGet_dictSet_self, hoeq]
    · have hfind2 : findState rest i = some ⟨i, WidgetValue.trigger_value true⟩ := by
        simpa [findState, ho] using hfind
      simp only [List.foldl_cons]
      refine ih _ ns hfind2 ?_ hns
      rw [coalesceStep_get_ne _ _ _ (fun a => ho a.symm)]
      exact hd

/-! Lemmas on the indexing fold that builds the dict from the new snapshot. -/

/-- Indexing states whose ids differ from `i` does not change what the dict
holds at `i`. -/
theorem insFold_get_ne (ws : List WidgetState)
    (d : List (String × WidgetState)) (i : String)
    (h : ∀ w ∈ ws, w.id ≠ i) :
    dictGet (ws.foldl (fun d w => dictSet d w.id w) d) i = dictGet d i := by
  induction ws generalizing d with
  | nil => rfl
  | cons w rest ih =>
    simp only [List.foldl_cons]
    rw [ih _ (fun x hx => h x (List.mem_cons_of_mem _ hx))]
    exact dictGet_dictSet_ne _ _ _ _
      (fun a => h w (List.mem_cons_self _ _) a.symm)

/-- On a snapshot with unique ids, the dict built from it reads exactly as
the first-entry lookup on the snapshot. -/
theorem statesById_get_eq_findState (ws : List WidgetState)
    (d : List (String × WidgetState)) (i : String)
    (hd : dictGet d i = none) (hnodup : (ws.map WidgetState.id).Nodup) :
    dictGet (ws.foldl (fun d w => dictSet d w.id w) d) i = findState ws i := by
  induction ws generalizing d with
  | nil => simpa using hd
  | cons w rest ih =>
    rw [List.map_cons] at hnodup
    rcases List.nodup_cons.mp hnodup with ⟨hw1, hw2⟩
    simp only [List.foldl_cons]
    by_cases hw : w.id = i
    · subst hw
      rw [insFold_get_ne rest _ _ ?hne, dictGet_dictSet_self]
      · simp [findState]
      case hne =>
        intro x hx hxe
        exact hw1 (hxe ▸ List.mem_map_of_mem WidgetState.id hx)
    · rw [show findState (w :: rest) i = findState rest i by simp [findState, hw]]
      refine ih _ ?_ hw2
      rw [dictGet_dictSet_ne _ _ _ _ (fun a => hw a.symm)]
      exact hd

/-- Every entry the indexing fold adds over `d` is a pair of a state of the
snapshot with its own id. -/
theorem mem_insFold (ws : List WidgetState)
    (d : List (String × WidgetState)) (q : String × WidgetState)
    (h : q ∈ ws.foldl (fun d w => dictSet d w.id w) d) :
    q ∈ d ∨ (q.1 = q.2.id ∧ q.2 ∈ ws) := by
  induction ws generalizing d with
  | nil => exact Or.inl h
  | cons w rest ih =>
    simp only [List.foldl_cons] at h
    rcases ih _ h with h2 | h2
    · rcases mem_of_mem_dictSet h2 with h3 | h3
      · exact Or.inl h3
      · subst h3
        exact Or.inr ⟨rfl, List.mem_cons_self _ _⟩
    · exact Or.inr ⟨h2.1, List.mem_cons_of_mem _ h2.2⟩

/-- On a snapshot with unique ids the indexing fold appends one entry per
state in order. -/
theorem statesById_eq_of_nodup (ws : List WidgetState)
    (d : List (String × WidgetState))
    (h : (d.map Prod.fst ++ ws.map WidgetState.id).Nodup) :
    ws.foldl (fun d w => dictSet d w.id w) d
      = d ++ ws.map (fun w => (w.id, w)) := by
  induction ws generalizing d with
  | nil => simp
  | cons w rest ih =>
    rw [List.map_cons] at h
    rcases List.nodup_append.mp h with ⟨hd, hws, hdisj⟩
    have hnotin : w.id ∉ d.map Prod.fst := by
      intro hin
      exact hdisj hin (List.mem_cons_self _ _)
    simp only [List.foldl_cons]
    rw [dictSet_eq_append hnotin, ih (d ++ [(w.id, w)]) ?h2]
    · simp
    case h2 =>
      rw [List.map_append, List.append_assoc]
      simpa using h

/-- Each coalescer step keeps entries of the dict or writes the processed
old state at its own id. -/
theorem mem_of_mem_coalesceStep {d : List (String × WidgetState)}
    {o : WidgetState} {q : String × WidgetState}
    (h : q ∈ coalesceStep d o) : q ∈ d ∨ q = (o.id, o) := by
  by_cases hc : o.whichOneof = "trigger_value" ∧ o.trigger_value = true
  · rcases hg : dictGet d o.id with _ | nv
    · rw [coalesceStep_of_absent hg] at h
      exact Or.inl h
    · by_cases ht : nv.whichOneof = "trigger_value"
      · rw [coalesceStep_of_fire hc.1 hc.2 hg ht] at h
        exact mem_of_mem_dictSet h
      · rw [coalesceStep_of_nontrigger hg ht] at h
        exact Or.inl h
  · rw [coalesceStep_of_not_fire hc] at h
    exact Or.inl h

/-- When no old state occupies the trigger slot, the old-state loop is the
identity on the dict. -/
theorem coalesceFold_id_of_no_trigger (olds : List WidgetState)
    (d : List (String × WidgetState))
    (h : ∀ o ∈ olds, o.whichOneof ≠ "trigger_value") :
    olds.foldl coalesceStep d = d := by
  induction olds generalizing d with
  | nil => rfl
  | cons o rest ih =>
    simp only [List.foldl_cons]
    rw [coalesceStep_of_not_fire
      (fun hc => h o (List.mem_cons_self _ _) hc.1)]
    exact ih _ (fun x hx => h x (List.mem_cons_of_mem _ hx))

/-- The key of every dict entry is the id of its state, for dicts built by
the indexing fold and maintained by the coalescer loop. -/
theorem coalesceFold_key_eq_id (olds : List WidgetState)
    (d : List (String × WidgetState))
    (hd : ∀ q ∈ d, q.1 = q.2.id) :
    ∀ q ∈ olds.foldl coalesceStep d, q.1 = q.2.id := by
  induction olds generalizing d with
  | nil => exact hd
  | cons o rest ih =>
    simp only [List.foldl_cons]
    refine ih _ ?_
    intro q hq
    rcases mem_of_mem_coalesceStep hq with h | h
    · exact hd q h
    · subst h; rfl

/-- First-entry lookup on the emitted values agrees with dict lookup, as
long as every key is the id of its state. -/
theorem findState_map_snd (d : List (String × WidgetState)) (i : String)
    (hd : ∀ q ∈ d, q.1 = q.2.id) :
    findState (d.map (fun p => p.2)) i = dictGet d i := by
  induction d with
  | nil => rfl
  | cons p rest ih =>
    have hp : p.1 = p.2.id := hd p (List.mem_cons_self _ _)
    simp only [List.map_cons, findState, dictGet]
    by_cases h : p.2.id = i
    · rw [if_pos h, if_pos (hp.trans h)]
    · rw [if_neg h, if_neg (fun a => h (hp.symm.trans a))]
      exact ih (fun q hq => hd q (List.mem_cons_of_mem _ hq))

/-- Provenance invariant of the coalescer dict relative to the new snapshot
`newW` and the pool `O` of old states: every entry is keyed by the id of its
state, and its state either comes from the new snapshot, or is a
trigger-true old state written over a trigger-slot new entry of the same
id. -/
def ProvenanceInv (newW O : List WidgetState) (q : String × WidgetState) : Prop :=
  q.1 = q.2.id ∧
  (q.2 ∈ newW ∨ (q.2 ∈ O ∧ q.2.value = WidgetValue.trigger_value true ∧
    ∃ ns, ns ∈ newW ∧ ns.id = q.1 ∧ ns.whichOneof = "trigger_value"))

theorem coalesceStep_provenance {newW O : List WidgetState}
    {d : List (String × WidgetState)} {o : WidgetState}
    {q : String × WidgetState}
    (hd : ∀ p ∈ d, ProvenanceInv newW O p) (ho : o ∈ O)
    (hq : q ∈ coalesceStep d o) : ProvenanceInv newW O q := by
  by_cases hc : o.whichOneof = "trigger_value" ∧ o.trigger_value = true
  · rcases hg : dictGet d o.id with _ | nv
    · rw [coalesceStep_of_absent hg] at hq
      exact hd q hq
    · by_cases ht : nv.whichOneof = "trigger_value"
      · rw [coalesceStep_of_fire hc.1 hc.2 hg ht] at hq
        rcases mem_of_mem_dictSet hq with h | h
        · exact hd q h
        · subst h
          refine ⟨rfl, Or.inr ⟨ho, ?_, ?_⟩⟩
          · exact congrArg WidgetState.value (eq_trigger_true hc.1 hc.2)
          · have hmem := dictGet_mem hg
            rcases hd _ hmem with ⟨hk, hrest⟩
            rcases hrest with hnew | ⟨_, _, ns, hns1, hns2, hns3⟩
            · exact ⟨nv, hnew, hk.symm, ht⟩
            · exact ⟨ns, hns1, hns2, hns3⟩
      · rw [coalesceStep_of_nontrigger hg ht] at hq
        exact hd q hq
  · rw [coalesceStep_of_not_fire hc] at hq
    exact hd q hq

theorem coalesceFold_provenance (newW O : List WidgetState)
    (olds : List WidgetState) :
    ∀ (d : List (String × WidgetState)),
    (∀ o ∈ olds, o ∈ O) →
    (∀ p ∈ d, ProvenanceInv newW O p) →
    ∀ q ∈ olds.foldl coalesceStep d, ProvenanceInv newW O q := by
  induction olds with
  | nil =>
    intro d _ hd
    exact hd
  | cons o rest ih =>
    intro d hsub hd
    simp only [List.foldl_cons]
    exact ih _ (fun x hx => hsub x (List.mem_cons_of_mem _ hx))
      (fun p hp => coalesceStep_provenance hd (hsub o (List.mem_cons_self _ _)) hp)

/-- Appending to a fixed string on the left is injective. -/
theorem string_append_cancel_left {a b c : String} (h : a ++ b = a ++ c) :
    b = c := by
  have h2 := congrArg String.data h
  simp only [String.data_append] at h2
  exact String.ext (List.append_cancel_left h2)

/-! ## Concrete material for witnesses and counterexamples -/

/-- A concrete widget identity. -/
def wId : String := "widget-1"

/-- A trigger-true state for `wId`. -/
def wTriggerTrue : WidgetState := { id := wId, value := WidgetValue.trigger_value true }

/-- A trigger-false state for `wId`. -/
def wTriggerFalse : WidgetState := { id := wId, value := WidgetValue.trigger_value false }

/-- A string-slot state for `wId`. -/
def wString : WidgetState := { id := wId, value := WidgetValue.string_value "x" }

/-- A non-trigger state for `wId` in an old snapshot. -/
def wIntOld : WidgetState := { id := wId, value := WidgetValue.int_value 1 }

/-- A non-trigger state for `wId` in a new snapshot. -/
def wIntNew : WidgetState := { id := wId, value := WidgetValue.int_value 2 }

/-! ## The claims about the state coalescer -/

/-- C1.  Trigger preservation: when the old snapshot maps an identity to a
trigger-slot value that is true and the new snapshot maps the same identity
to a trigger-slot value, the coalesced result maps that identity to the old
entry, regardless of the boolean carried by the new entry. -/
theorem claim_C1_trigger_preservation (old_states new_states : WidgetStates)
    (i : String) (os ns : WidgetState)
    (hnodup : (new_states.widgets.map WidgetState.id).Nodup)
    (hold : findState old_states.widgets i = some os)
    (htrig : os.value = WidgetValue.trigger_value true)
    (hnew : findState new_states.widgets i = some ns)
    (hslot : ns.whichOneof = "trigger_value") :
    findState (coalesce_widget_states old_states new_states).widgets i = some os := by
  have hosid : os.id = i := findState_id hold
  have hos : os = ⟨i, WidgetValue.trigger_value true⟩ := by
    rcases os with ⟨a, b⟩
    simp only [WidgetState.mk.injEq]
    exact ⟨hosid, htrig⟩
  rw [hos] at hold ⊢
  have hinv0 : ∀ q ∈ statesById new_states.widgets, q.1 = q.2.id := by
    intro q hq
    rcases mem_insFold _ _ _ hq with h | h
    · exact absurd h (List.not_mem_nil _)
    · exact h.1
  have hinv1 := coalesceFold_key_eq_id old_states.widgets _ hinv0
  simp only [coalesce_widget_states]
  rw [findState_map_snd _ _ hinv1]
  refine coalesceFold_get_of_trigger _ _ _ ns hold ?_ hslot
  rw [statesById, statesById_get_eq_findState new_states.widgets [] i rfl hnodup]
  exact hnew

/-- Witness for C1 at a concrete old snapshot holding the trigger-true state
and a new snapshot holding the trigger-false state for the same identity. -/
theorem claim_C1_witness :
    ([wTriggerFalse].map WidgetState.id).Nodup
    ∧ findState [wTriggerTrue] wId = some wTriggerTrue
    ∧ wTriggerTrue.value = WidgetValue.trigger_value true
    ∧ findState [wTriggerFalse] wId = some wTriggerFalse
    ∧ wTriggerFalse.whichOneof = "trigger_value"
    ∧ findState (coalesce_widget_states ⟨[wTriggerTrue]⟩ ⟨[wTriggerFalse]⟩).widgets wId
        = some wTriggerTrue :=
  ⟨by decide, by decide, by decide, by decide, by decide,
   claim_C1_trigger_preservation ⟨[wTriggerTrue]⟩ ⟨[wTriggerFalse]⟩ wId
     wTriggerTrue wTriggerFalse (by decide) (by decide) (by decide) (by decide)
     (by decide)⟩

/-- C2.  Trigger non-leak and absence handling: a trigger-true old entry for
an identity that is absent from the new snapshot stays absent from the
result, and one whose new entry occupies a non-trigger slot leaves exactly
that new entry in the result. -/
theorem claim_C2_trigger_non_leak_and_absence (old_states : WidgetStates)
    (i : String) (os : WidgetState)
    (hold : findState old_states.widgets i = some os)
    (htrig : os.value = WidgetValue.trigger_value true) :
    (∀ new_states : WidgetStates, (∀ w ∈ new_states.widgets, w.id ≠ i) →
      findState (coalesce_widget_states old_states new_states).widgets i = none)
    ∧ (∀ (new_states : WidgetStates) (ns : WidgetState),
        (new_states.widgets.map WidgetState.id).Nodup →
        findState new_states.widgets i = some ns →
        ns.whichOneof ≠ "trigger_value" →
        findState (coalesce_widget_states old_states new_states).widgets i = some ns) := by
  constructor
  · intro new_states habs
    have hinv0 : ∀ q ∈ statesById new_states.widgets, q.1 = q.2.id := by
      intro q hq
      rcases mem_insFold _ _ _ hq with h | h
      · exact absurd h (List.not_mem_nil _)
      · exact h.1
    simp only [coalesce_widget_states]
    rw [findState_map_snd _ _ (coalesceFold_key_eq_id old_states.widgets _ hinv0)]
    refine coalesceFold_get_none _ _ _ ?_
    rw [statesById, insFold_get_ne _ _ _ habs]
    rfl
  · intro new_states ns hnodup hnew hns
    have hinv0 : ∀ q ∈ statesById new_states.widgets, q.1 = q.2.id := by
      intro q hq
      rcases mem_insFold _ _ _ hq with h | h
      · exact absurd h (List.not_mem_nil _)
      · exact h.1
    simp only [coalesce_widget_states]
    rw [findState_map_snd _ _ (coalesceFold_key_eq_id old_states.widgets _ hinv0)]
    refine coalesceFold_get_nontrigger _ _ _ ns ?_ hns
    rw [statesById, statesById_get_eq_findState new_states.widgets [] i rfl hnodup]
    exact hnew

/-- Witness for C2: with the trigger-true old entry, coalescing against the
empty snapshot leaves the identity absent, and coalescing against a
string-slot snapshot keeps exactly the string entry. -/
theorem claim_C2_witness :
    findState [wTriggerTrue] wId = some wTriggerTrue
    ∧ wTriggerTrue.value = WidgetValue.trigger_value true
    ∧ findState (coalesce_widget_states ⟨[wTriggerTrue]⟩ ⟨[]⟩).widgets wId = none
    ∧ findState (coalesce_widget_states ⟨[wTriggerTrue]⟩ ⟨[wString]⟩).widgets wId
        = some wString :=
  ⟨by decide, by decide,
   (claim_C2_trigger_non_leak_and_absence ⟨[wTriggerTrue]⟩ wId wTriggerTrue
       (by decide) (by decide)).1 ⟨[]⟩
     (fun w hw => absurd hw (List.not_mem_nil _)),
   (claim_C2_trigger_non_leak_and_absence ⟨[wTriggerTrue]⟩ wId wTriggerTrue
       (by decide) (by decide)).2 ⟨[wString]⟩ wString (by decide) (by decide)
     (by decide)⟩

/-- C6 counterexample: the new snapshot itself can report a trigger-true
state for an identity the old snapshot does not hold at all, and the
coalesced result then contains that trigger-true entry — so the result can
contain a trigger-true value for an identity that did not hold one in the
old snapshot. -/
theorem claim_C6_counterexample :
    (coalesce_widget_states ⟨[]⟩ ⟨[wTriggerTrue]⟩).widgets = [wTriggerTrue]
    ∧ wTriggerTrue.value = WidgetValue.trigger_value true
    ∧ findState [] wId = none := by
  decide

/-- C6 (amended).  Coalescer trigger provenance: every trigger-true entry of
the coalesced result is an entry of the new snapshot, or an entry of the old
snapshot written over a same-id new entry that occupies the trigger slot; in
particular no trigger-true entry is invented, and none lands on an identity
whose new entry occupies a non-trigger slot. -/
theorem claim_C6_trigger_invariant (old_states new_states : WidgetStates)
    (s : WidgetState)
    (hmem : s ∈ (coalesce_widget_states old_states new_states).widgets)
    (htrig : s.value = WidgetValue.trigger_value true) :
    s ∈ new_states.widgets
    ∨ (s ∈ old_states.widgets
        ∧ ∃ ns, ns ∈ new_states.widgets ∧ ns.id = s.id
            ∧ ns.whichOneof = "trigger_value") := by
  simp only [coalesce_widget_states] at hmem
  rcases List.mem_map.mp hmem with ⟨q, hq, hqs⟩
  have hbase : ∀ p ∈ statesById new_states.widgets,
      ProvenanceInv new_states.widgets old_states.widgets p := by
    intro p hp
    rcases mem_insFold _ _ _ hp with h | h
    · exact absurd h (List.not_mem_nil _)
    · exact ⟨h.1, Or.inl h.2⟩
  have hQ := coalesceFold_provenance new_states.widgets old_states.widgets
    old_states.widgets _ (fun o ho => ho) hbase q hq
  rcases hQ with ⟨hk, hrest⟩
  rcases hrest with h | ⟨homem, hval, ns, h1, h2, h3⟩
  · exact Or.inl (hqs ▸ h)
  · refine Or.inr ⟨hqs ▸ homem, ns, h1, ?_, h3⟩
    rw [h2, hk, hqs]

/-- Witness for C6 (amended): the preserved trigger-true entry of the C1
scenario comes from the old snapshot, over a trigger-slot new entry. -/
theorem claim_C6_witness :
    wTriggerTrue ∈ (coalesce_widget_states ⟨[wTriggerTrue]⟩ ⟨[wTriggerFalse]⟩).widgets
    ∧ wTriggerTrue.value = WidgetValue.trigger_value true
    ∧ (wTriggerTrue ∈ [wTriggerFalse]
       ∨ (wTriggerTrue ∈ [wTriggerTrue]
           ∧ ∃ ns, ns ∈ [wTriggerFalse] ∧ ns.id = wTriggerTrue.id
               ∧ ns.whichOneof = "trigger_value")) :=
  ⟨by decide, by decide,
   claim_C6_trigger_invariant ⟨[wTriggerTrue]⟩ ⟨[wTriggerFalse]⟩ wTriggerTrue
     (by decide) (by decide)⟩

/-- C7.  Non-trigger neutrality: when no entry of either snapshot occupies
the trigger slot and the new snapshot has unique identities, coalescing
returns the new snapshot (here proved as plain equality, which subsumes
equality up to entry order). -/
theorem claim_C7_non_trigger_neutrality (old_states new_states : WidgetStates)
    (hold : ∀ w ∈ old_states.widgets, w.whichOneof ≠ "trigger_value")
    (hnew : ∀ w ∈ new_states.widgets, w.whichOneof ≠ "trigger_value")
    (hnodup : (new_states.widgets.map WidgetState.id).Nodup) :
    coalesce_widget_states old_states new_states = new_states := by
  simp only [coalesce_widget_states]
  rw [coalesceFold_id_of_no_trigger _ _ hold]
  rw [statesById, statesById_eq_of_nodup new_states.widgets [] (by simpa using hnodup)]
  rcases new_states with ⟨ws⟩
  have hid : ∀ l : List WidgetState,
      List.map ((fun p : String × WidgetState => p.2) ∘ fun w => (w.id, w)) l = l := by
    intro l
    induction l with
    | nil => rfl
    | cons w rest ih => simp only [List.map_cons, ih, Function.comp_apply]
  simp only [List.nil_append, List.map_map]
  exact congrArg WidgetStates.mk (hid ws)

/-- Witness for C7 at concrete non-trigger snapshots with one id each. -/
theorem claim_C7_witness :
    (∀ w ∈ [wIntOld], w.whichOneof ≠ "trigger_value")
    ∧ (∀ w ∈ [wIntNew], w.whichOneof ≠ "trigger_value")
    ∧ ([wIntNew].map WidgetState.id).Nodup
    ∧ coalesce_widget_states ⟨[wIntOld]⟩ ⟨[wIntNew]⟩ = ⟨[wIntNew]⟩ :=
  ⟨by decide, by decide, by decide,
   claim_C7_non_trigger_neutrality ⟨[wIntOld]⟩ ⟨[wIntNew]⟩ (by decide) (by decide)
     (by decide)⟩

/-! ## Concrete material for the registrar claims -/

/-- A concrete element type present in the static table. -/
def cexElementType : String := "button"

/-- A concrete proto with empty configuration bytes. -/
def cexProto : WidgetProto := { serialized := [], id := "" }

/-- The identity derived for `cexElementType`/`cexProto` with no user key. -/
def cexWidgetId : String := _get_widget_id cexElementType cexProto none

/-- The literal user key spelled like the python rendering of a missing
key. -/
def keyNone : String := "None"

/-- A concrete user key. -/
def keyA : String := "a"

/-- Another concrete user key. -/
def keyB : String := "b"

/-- An element type absent from the static table. -/
def unknownType : String := "frobnicator"

/-- A run context that has already claimed `cexWidgetId` and no user key. -/
def cexCtx : ScriptRunContext :=
  { widget_ids_this_run := [cexWidgetId], widget_user_keys_this_run := [] }

/-- A fresh run context: both claim sets empty. -/
def emptyCtx : ScriptRunContext :=
  { widget_ids_this_run := [], widget_user_keys_this_run := [] }

/-- A concrete deserializer over `Unit`. -/
def cexDeser : WidgetDeserializer Unit := { defaultValue := () }

/-! ## The claims about the per-run registrar -/

/-- C3.  Duplicate detection raises-iff: with a run context present, the
call raises `DuplicateWidgetID` exactly when a supplied user key was already
claimed in this run, or the derived identity was already claimed in this
run; in particular a call against a fresh run (both claim sets empty) never
raises `DuplicateWidgetID`. -/
theorem claim_C3_duplicate_detection {T : Type} (element_type : String)
    (element_proto : WidgetProto) (deserializer : WidgetDeserializer T)
    (ctx : ScriptRunContext) (user_key widget_func_name : Option String) :
    ((register_widget element_type element_proto deserializer (some ctx)
        user_key widget_func_name).outcome.isRaisedDup = true
      ↔ (∃ k, user_key = some k ∧ k ∈ ctx.widget_user_keys_this_run)
        ∨ _get_widget_id element_type element_proto user_key
            ∈ ctx.widget_ids_this_run)
    ∧ (register_widget element_type element_proto deserializer (some emptyCtx)
        user_key widget_func_name).outcome.isRaisedDup = false := by
  constructor
  · cases user_key with
    | none =>
      by_cases hw : _get_widget_id element_type element_proto none
          ∈ ctx.widget_ids_this_run
      · simp [register_widget, hw, RegisterOutcome.isRaisedDup]
      · rcases hlk : ELEMENT_TYPE_TO_VALUE_TYPE.lookup element_type with _ | vt <;>
          simp [register_widget, hw, hlk, RegisterOutcome.isRaisedDup]
    | some k =>
      by_cases hk : k ∈ ctx.widget_user_keys_this_run
      · simp [register_widget, hk, RegisterOutcome.isRaisedDup]
      · by_cases hw : _get_widget_id element_type element_proto (some k)
            ∈ ctx.widget_ids_this_run
        · simp [register_widget, hk, hw, RegisterOutcome.isRaisedDup]
        · rcases hlk : ELEMENT_TYPE_TO_VALUE_TYPE.lookup element_type with _ | vt <;>
            simp [register_widget, hk, hw, hlk, RegisterOutcome.isRaisedDup]
  · cases user_key with
    | none =>
      rcases hlk : ELEMENT_TYPE_TO_VALUE_TYPE.lookup element_type with _ | vt <;>
        simp [register_widget, emptyCtx, hlk, RegisterOutcome.isRaisedDup]
    | some k =>
      rcases hlk : ELEMENT_TYPE_TO_VALUE_TYPE.lookup element_type with _ | vt <;>
        simp [register_widget, emptyCtx, hlk, RegisterOutcome.isRaisedDup]

/-- Witness for C3 at concrete inputs: with a fresh run context the concrete
call does not raise, in accordance with the iff. -/
theorem claim_C3_witness :
    ((register_widget cexElementType cexProto cexDeser (some emptyCtx)
        none none).outcome.isRaisedDup = true
      ↔ (∃ k, (none : Option String) = some k
            ∧ k ∈ emptyCtx.widget_user_keys_this_run)
        ∨ _get_widget_id cexElementType cexProto none
            ∈ emptyCtx.widget_ids_this_run)
    ∧ (register_widget cexElementType cexProto cexDeser (some emptyCtx)
        none none).outcome.isRaisedDup = false :=
  claim_C3_duplicate_detection cexElementType cexProto cexDeser emptyCtx none none

/-- C4.  No-context fallback: with no run context the call returns the
fallback result carrying the default value of the deserializer, raises
nothing, touches no claim set, and only assigns the derived identity onto
the proto. -/
theorem claim_C4_no_context_fallback {T : Type} (element_type : String)
    (element_proto : WidgetProto) (deserializer : WidgetDeserializer T)
    (user_key widget_func_name : Option String) :
    register_widget element_type element_proto deserializer none user_key
        widget_func_name
      = { outcome := RegisterOutcome.fallback
            { value := deserializer.defaultValue, value_changed := false },
          ctx := none,
          element_proto :=
            { element_proto with
                id := _get_widget_id element_type element_proto user_key } } := rfl

set_option maxRecDepth 10000 in
/-- C5 counterexample: registering with the fresh user key None (the literal
string) against a run that already claimed the identity derived with no key
fails with `DuplicateWidgetID` — the derived identity collides because a
missing key and the key None render identically — yet the claim sets are not
left unchanged: the key has already been added when the raise happens. -/
theorem claim_C5_counterexample :
    (register_widget cexElementType cexProto cexDeser (some cexCtx)
        (some keyNone) none).outcome.isRaisedDup = true
    ∧ (register_widget cexElementType cexProto cexDeser (some cexCtx)
        (some keyNone) none).ctx ≠ some cexCtx := by
  decide

/-- C5 (amended).  Claim-set mutation: a successful call adds exactly the
identity and, when supplied, the key; a call failing on a duplicate user key
leaves the claim sets unchanged; a call failing on a duplicate identity
leaves the identity set unchanged but has already added a supplied fresh
user key to the key set; a keyless call failing on a duplicate identity
leaves the claim sets unchanged. -/
theorem claim_C5_claim_set_mutation {T : Type} (element_type : String)
    (element_proto : WidgetProto) (deserializer : WidgetDeserializer T)
    (ctx : ScriptRunContext) (user_key widget_func_name : Option String) :
    ((∃ m k2, (register_widget element_type element_proto deserializer
          (some ctx) user_key widget_func_name).outcome
        = RegisterOutcome.delegated m k2) →
      (register_widget element_type element_proto deserializer (some ctx)
          user_key widget_func_name).ctx
        = some { widget_ids_this_run := (ctx.widget_ids_this_run
                     ++ [_get_widget_id element_type element_proto user_key]),
                 widget_user_keys_this_run := (ctx.widget_user_keys_this_run
                     ++ (match user_key with | some k => [k] | none => [])) })
    ∧ ((∃ k, user_key = some k ∧ k ∈ ctx.widget_user_keys_this_run) →
        (register_widget element_type element_proto deserializer (some ctx)
            user_key widget_func_name).ctx = some ctx)
    ∧ (∀ k, user_key = some k → k ∉ ctx.widget_user_keys_this_run →
        _get_widget_id element_type element_proto user_key
            ∈ ctx.widget_ids_this_run →
        (register_widget element_type element_proto deserializer (some ctx)
            user_key widget_func_name).outcome.isRaisedDup = true
        ∧ (register_widget element_type element_proto deserializer (some ctx)
            user_key widget_func_name).ctx
          = some { widget_ids_this_run := ctx.widget_ids_this_run,
                   widget_user_keys_this_run := (ctx.widget_user_keys_this_run ++ [k]) })
    ∧ (user_key = none →
        _get_widget_id element_type element_proto user_key
            ∈ ctx.widget_ids_this_run →
        (register_widget element_type element_proto deserializer (some ctx)
            user_key widget_func_name).ctx = some ctx) := by
  refine ⟨?succ, ?keydup, ?iddup, ?iddupnone⟩
  case keydup =>
    rintro ⟨k, rfl, hk⟩
    simp [register_widget, hk]
  case iddup =>
    rintro k rfl hk hid
    constructor
    · simp [register_widget, hk, hid, RegisterOutcome.isRaisedDup]
    · simp [register_widget, hk, hid]
  case iddupnone =>
    rintro rfl hid
    simp [register_widget, hid]
  case succ =>
    rintro ⟨m, k2, hout⟩
    cases user_key with
    | none =>
      by_cases hid : _get_widget_id element_type element_proto none
          ∈ ctx.widget_ids_this_run
      · simp [register_widget, hid] at hout
      · rcases hlk : ELEMENT_TYPE_TO_VALUE_TYPE.lookup element_type with _ | vt
        · simp [register_widget, hid, hlk] at hout
        · simp [register_widget, hid, hlk]
    | some k =>
      by_cases hk : k ∈ ctx.widget_user_keys_this_run
      · simp [register_widget, hk] at hout
      · by_cases hid : _get_widget_id element_type element_proto (some k)
            ∈ ctx.widget_ids_this_run
        · simp [register_widget, hk, hid] at hout
        · rcases hlk : ELEMENT_TYPE_TO_VALUE_TYPE.lookup element_type with _ | vt
          · simp [register_widget, hk, hid, hlk] at hout
          · simp [register_widget, hk, hid, hlk]

set_option maxRecDepth 10000 in
/-- Witness for C5 (amended), exercising the duplicate-identity-with-
fresh-key conjunct at the concrete collision input. -/
theorem claim_C5_witness :
    keyNone ∉ cexCtx.widget_user_keys_this_run
    ∧ _get_widget_id cexElementType cexProto (some keyNone)
        ∈ cexCtx.widget_ids_this_run
    ∧ ((register_widget cexElementType cexProto cexDeser (some cexCtx)
          (some keyNone) none).outcome.isRaisedDup = true
       ∧ (register_widget cexElementType cexProto cexDeser (some cexCtx)
          (some keyNone) none).ctx
         = some { widget_ids_this_run := cexCtx.widget_ids_this_run,
                  widget_user_keys_this_run :=
                    (cexCtx.widget_user_keys_this_run ++ [keyNone]) }) :=
  ⟨List.not_mem_nil _, List.mem_singleton.mpr rfl,
   (claim_C5_claim_set_mutation cexElementType cexProto cexDeser cexCtx
       (some keyNone) none).2.2.1 keyNone rfl (List.not_mem_nil _)
     (List.mem_singleton.mpr rfl)⟩

/-- C9.  Descriptor identity assignment on every path: the derived identity
is written into the id field of the element proto before the run context is
examined, so the returned proto carries it on the no-context path, on both
raising paths, on the missing-table-entry path and on the happy path
alike. -/
theorem claim_C9_proto_id_on_every_path {T : Type} (element_type : String)
    (element_proto : WidgetProto) (deserializer : WidgetDeserializer T)
    (ctx : Option ScriptRunContext) (user_key widget_func_name : Option String) :
    (register_widget element_type element_proto deserializer ctx user_key
        widget_func_name).element_proto
      = { element_proto with
            id := _get_widget_id element_type element_proto user_key } := by
  cases ctx with
  | none => rfl
  | some c =>
    cases user_key with
    | none =>
      by_cases hid : _get_widget_id element_type element_proto none
          ∈ c.widget_ids_this_run
      · simp [register_widget, hid]
      · rcases hlk : ELEMENT_TYPE_TO_VALUE_TYPE.lookup element_type with _ | vt <;>
          simp [register_widget, hid, hlk]
    | some k =>
      by_cases hk : k ∈ c.widget_user_keys_this_run
      · simp [register_widget, hk]
      · by_cases hid : _get_widget_id element_type element_proto (some k)
            ∈ c.widget_ids_this_run
        · simp [register_widget, hk, hid]
        · rcases hlk : ELEMENT_TYPE_TO_VALUE_TYPE.lookup element_type with _ | vt <;>
            simp [register_widget, hk, hid, hlk]

/-- C10.  Unknown element type is unguarded: with a run context, no
duplicate key and no duplicate identity, an element type outside the static
16-entry table makes the call end in a KeyError at metadata construction,
after both claim sets have already been mutated. -/
theorem claim_C10_unknown_type_keyerror {T : Type} (element_type : String)
    (element_proto : WidgetProto) (deserializer : WidgetDeserializer T)
    (ctx : ScriptRunContext) (user_key widget_func_name : Option String)
    (hlk : ELEMENT_TYPE_TO_VALUE_TYPE.lookup element_type = none)
    (hkey : ∀ k, user_key = some k → k ∉ ctx.widget_user_keys_this_run)
    (hid : _get_widget_id element_type element_proto user_key
        ∉ ctx.widget_ids_this_run) :
    ELEMENT_TYPE_TO_VALUE_TYPE.length = 16
    ∧ (register_widget element_type element_proto deserializer (some ctx)
        user_key widget_func_name).outcome
      = RegisterOutcome.raisedKeyError element_type
    ∧ (register_widget element_type element_proto deserializer (some ctx)
        user_key widget_func_name).ctx
      = some { widget_ids_this_run := (ctx.widget_ids_this_run
                   ++ [_get_widget_id element_type element_proto user_key]),
               widget_user_keys_this_run := (ctx.widget_user_keys_this_run
                   ++ (match user_key with | some k => [k] | none => [])) } := by
  refine ⟨rfl, ?_, ?_⟩
  · cases user_key with
    | none => simp [register_widget, hid, hlk]
    | some k =>
      have hk := hkey k rfl
      simp [register_widget, hk, hid, hlk]
  · cases user_key with
    | none => simp [register_widget, hid, hlk]
    | some k =>
      have hk := hkey k rfl
      simp [register_widget, hk, hid, hlk]

/-- Witness for C10 at the concrete unknown element type against a fresh
run context with a concrete user key. -/
theorem claim_C10_witness :
    ELEMENT_TYPE_TO_VALUE_TYPE.lookup unknownType = none
    ∧ keyA ∉ emptyCtx.widget_user_keys_this_run
    ∧ _get_widget_id unknownType cexProto (some keyA)
        ∉ emptyCtx.widget_ids_this_run
    ∧ (ELEMENT_TYPE_TO_VALUE_TYPE.length = 16
       ∧ (register_widget unknownType cexProto cexDeser (some emptyCtx)
           (some keyA) none).outcome
         = RegisterOutcome.raisedKeyError unknownType
       ∧ (register_widget unknownType cexProto cexDeser (some emptyCtx)
           (some keyA) none).ctx
         = some { widget_ids_this_run := (emptyCtx.widget_ids_this_run
                      ++ [_get_widget_id unknownType cexProto (some keyA)]),
                  widget_user_keys_this_run := (emptyCtx.widget_user_keys_this_run
                      ++ (match (some keyA : Option String) with
                          | some k => [k] | none => [])) }) :=
  ⟨by decide, List.not_mem_nil _, List.not_mem_nil _,
   claim_C10_unknown_type_keyerror unknownType cexProto cexDeser emptyCtx
     (some keyA) none (by decide) (fun k hk => by cases hk; exact List.not_mem_nil _)
     (List.not_mem_nil _)⟩

/-! ## The claim about the identity deriver -/

/-- C8 counterexample: a call with no user key and a call with the literal
user key None differ only in the user key yet derive the identical identity,
because the missing key renders as the same four characters. -/
theorem claim_C8_counterexample :
    _get_widget_id cexElementType cexProto none
      = _get_widget_id cexElementType cexProto (some keyNone)
    ∧ (none : Option String) ≠ some keyNone :=
  ⟨rfl, by decide⟩

/-- C8 (amended).  Identity derivation: the deriver is a pure function of
the element type, the configuration bytes and the user key; its result is
exactly the fixed prefix, a separator, the hex digest of the MD5 of the
element-type bytes followed by the configuration bytes, a separator, and the
rendered user key (the key string itself, or the absence rendering None);
and two calls differing only in a supplied user key derive different
identities — while a missing key renders exactly as the literal key None, so
only supplied keys separate identities. -/
theorem claim_C8_identity_derivation :
    (∀ (et1 et2 : String) (p1 p2 : WidgetProto) (k1 k2 : Option String),
        et1 = et2 → p1.serialized = p2.serialized → k1 = k2 →
        _get_widget_id et1 p1 k1 = _get_widget_id et2 p2 k2)
    ∧ (∀ (et : String) (p : WidgetProto) (k : Option String),
        _get_widget_id et p k
          = GENERATED_WIDGET_KEY_PREFIX ++ "-"
              ++ md5Hex (utf8Encode et ++ p.serialized) ++ "-" ++ pyStr k)
    ∧ (∀ (et : String) (p : WidgetProto) (k1 k2 : String), k1 ≠ k2 →
        _get_widget_id et p (some k1) ≠ _get_widget_id et p (some k2)) := by
  refine ⟨?det, ?fmt, ?keys⟩
  case det =>
    intro et1 et2 p1 p2 k1 k2 h1 h2 h3
    subst h1
    subst h3
    simp only [_get_widget_id, Md5Ctx.update, Md5Ctx.hexdigest,
      WidgetProto.SerializeToString, h2]
  case fmt =>
    intro et p k
    simp only [_get_widget_id, Md5Ctx.update, Md5Ctx.hexdigest,
      WidgetProto.SerializeToString, List.nil_append]
  case keys =>
    intro et p k1 k2 hne heq
    simp only [_get_widget_id, Md5Ctx.update, Md5Ctx.hexdigest,
      WidgetProto.SerializeToString, pyStr] at heq
    exact hne (string_append_cancel_left heq)

/-- Witness for C8 (amended): two distinct concrete supplied keys derive
distinct identities. -/
theorem claim_C8_witness :
    keyA ≠ keyB
    ∧ _get_widget_id cexElementType cexProto (some keyA)
        ≠ _get_widget_id cexElementType cexProto (some keyB) :=
  ⟨by decide,
   claim_C8_identity_derivation.2.2 cexElementType cexProto keyA keyB (by decide)⟩

end Widgets
